import Mathlib

/-
Shallow embedding of the WINK link layer (linklayer1.c, linklayer.h) and its
simulated physical layer (sim-physical.c).

Modelling conventions:
- C `byte` (unsigned char) values are Nat; explicit `% 256` appears exactly
  where the C code performs a (byte) cast.
- Byte arrays are `List Nat`; writing consecutive cells is list append,
  reading cell i with a default of 0 is `List.getD`.
- The C pseudo-random source `rand()` is an abstract stream `rand : Nat -> Nat`
  together with a cursor `ridx`; each call to rand() reads `rand ridx` and
  advances the cursor.  The `% 16`, `% 200`, `% 8`, `% 256` reductions of the
  C code are applied at the call sites, as in the source.
- Wall-clock time is discretised: the clock is a Nat that advances by one tick
  at each PHY_get call (the only blocking operation); timeSet yields a
  deadline `clock + limit` and timeUp is `deadline <= clock`, mirroring
  clock() >= timeLimit in the source.
- The simulated PHY_get always delivers exactly one byte when asked for one
  (a stored byte if available, otherwise one synthetic random byte), and never
  returns a negative value; the `retVal < 0` branches of the C callers are
  therefore dead under the simulated physical layer and have no counterpart
  in the embedding.
- The floating-point corruption threshold `1 + (int)(8.0 * RAND_MAX * probErr)`
  of PHY_send is abstracted as a Nat field `threshold` of the channel state,
  set at PHY_open; the comparison `rand() < threshold` is kept exactly.
-/

namespace WinkLL

/- Constants from linklayer.h. -/

def MAX_BLK : Nat := 255

def MOD_SEQNUM : Nat := 16

def STARTBYTE : Nat := 206

def ENDBYTE : Nat := 204

def STUFFBYTE : Nat := 220

def SEQNUMPOS : Nat := 2

def BYTECOUNTPOS : Nat := 1

def HEADERSIZE : Nat := 3

def TRAILERSIZE : Nat := 2

/- Constant from sim-physical.c. -/

def BUFSIZE : Nat := 2000

/- Helper mirroring the C for loop `for (i = lo; i < lo + cnt; i++) s += frame[i]`:
sum of `cnt` consecutive cells of `l` starting at index `lo` (missing cells read 0). -/
def sumFrom (l : List Nat) (lo : Nat) : Nat → Nat
  | 0 => 0
  | cnt + 1 => l.getD lo 0 + sumFrom l (lo + 1) cnt

/- buildDataFrame from linklayer1.c.  Returns the frame byte array together
with the C return value HEADERSIZE+nData+TRAILERSIZE.  The (byte) casts on the
byte-count cell and the sequence-number cell are the `% 256`; the checksum is
already in 0..255 by construction.  The C code copies dataTx[0..nData); the
embedding takes the first nData entries of the data list. -/
def buildDataFrame (dataTx : List Nat) (nData : Nat) (seq : Nat) : List Nat × Nat :=
  let checkSum := (256 - ((dataTx.take nData).sum % 256)) % 256
  ([STARTBYTE, (HEADERSIZE + nData + TRAILERSIZE) % 256, seq % 256]
     ++ dataTx.take nData ++ [checkSum, ENDBYTE],
   HEADERSIZE + nData + TRAILERSIZE)

/- checkFrame from linklayer1.c.  The checksum loop runs over
i = HEADERSIZE .. HEADERSIZE + nData + 1 (exclusive) with nData = nFrame - 5
computed in C int arithmetic, i.e. exactly `nFrame - 4` iterations truncated
at zero, which is Nat subtraction `nFrame - 4`. -/
def checkFrame (frameRx : List Nat) (nFrame : Nat) : Nat :=
  if frameRx.getD 0 0 ≠ STARTBYTE then 0
  else if frameRx.getD (nFrame - 1) 0 ≠ ENDBYTE then 0
  else if (sumFrom frameRx HEADERSIZE (nFrame - 4)) % 256 ≠ 0 then 0
  else if (nFrame : Int) ≠ frameRx.getD BYTECOUNTPOS 0 then 0
  else 1

/- processFrame from linklayer1.c.  Returns (return value, bytes written into
dataRx, value stored through the seqNum pointer).  nData is C int arithmetic,
so it is modelled in Int; the copy loop writes the first nData.toNat payload
cells. -/
def processFrame (frameRx : List Nat) (nFrame : Nat) (maxData : Nat) :
    Int × List Nat × Nat :=
  let seqNum := frameRx.getD SEQNUMPOS 0
  let nData0 : Int := (nFrame : Int) - HEADERSIZE - TRAILERSIZE
  let nData : Int := if nData0 > (maxData : Int) then (maxData : Int) else nData0
  (nData, (frameRx.drop HEADERSIZE).take nData.toNat, seqNum)

/- next from linklayer1.c. -/
def next (seq : Nat) : Nat :=
  (seq + 1) % MOD_SEQNUM

/- State of the simulated physical layer (sim-physical.c).  `buf` holds the
bytes written and not yet discarded, so `buf.length` is nBytesWritten and
`used` is nBytesUsed.  `rand`/`ridx` model the C rand() stream, `threshold`
the corruption threshold computed from rxProbErr, `rxTimeLimit` the receive
time limit stored by PHY_open. -/
structure Chan where
  buf : List Nat
  used : Nat
  rand : Nat → Nat
  ridx : Nat
  threshold : Nat
  rxTimeLimit : Nat

/- One call of the C rand(): the current stream value and the advanced state. -/
def draw (ch : Chan) : Nat × Chan :=
  (ch.rand ch.ridx, { ch with ridx := ch.ridx + 1 })

/- The loop `for (i=0; i<n; i++) buffer[i] = rand() % 200;` of PHY_send:
the list of n pseudo-random line-noise bytes and the advanced channel state. -/
def drawNoise : Chan → Nat → List Nat × Chan
  | ch, 0 => ([], ch)
  | ch, k + 1 =>
    let p := draw ch
    let q := drawNoise p.2 k
    (p.1 % 200 :: q.1, q.2)

/- The noise-injection branch of PHY_send (executed when nBytesWritten == 0):
nBytesWritten = 4 + rand() % 16, then that many bytes rand() % 200. -/
def injectNoise (ch : Chan) : Chan :=
  let p := draw ch
  let q := drawNoise p.2 (4 + p.1 % 16)
  { q.2 with buf := q.1 }

/- The copy loop of PHY_send: for each byte, with rand() < threshold flip one
pseudo-randomly chosen bit (xor with 1 << (rand() % 8)) before storing it.
Returns the list of stored bytes and the advanced channel state. -/
def storeBytes : Chan → List Nat → List Nat × Chan
  | ch, [] => ([], ch)
  | ch, b :: rest =>
    let p := draw ch
    if p.1 < ch.threshold then
      let q := draw p.2
      let r := storeBytes q.2 rest
      (Nat.xor b (2 ^ (q.1 % 8)) :: r.1, r.2)
    else
      let r := storeBytes p.2 rest
      (b :: r.1, r.2)

/- PHY_open from sim-physical.c.  Resets the byte counters, stores the receive
time limit as rxTimeConst + rxTimeIntv, and stores the corruption threshold
(abstracting the floating-point computation from probErr; srand seeding is
the choice of the abstract `rand` stream).  The port parameters are carried
but unused, and the function always returns 0 in simulation. -/
def PHY_open (ch : Chan) (portNum bitRate nDataBits parity : Nat)
    (rxTimeConst rxTimeIntv : Nat) (thresholdValue : Nat) : Int × Chan :=
  let _ := portNum
  let _ := bitRate
  let _ := nDataBits
  let _ := parity
  (0, { ch with buf := [], used := 0,
                rxTimeLimit := rxTimeConst + rxTimeIntv,
                threshold := thresholdValue })

/- PHY_close from sim-physical.c: does nothing and returns 0. -/
def PHY_close (ch : Chan) : Int × Chan :=
  (0, ch)

/- PHY_send from sim-physical.c.  If the buffer is empty, first injects the
line-noise bytes; then sends as many of the requested bytes as fit in
BUFSIZE, passing each through the corruption loop, and appends them to the
buffer.  Returns the number of bytes sent and the new channel state. -/
def PHY_send (ch : Chan) (dataTx : List Nat) (nBytesToSend : Nat) : Nat × Chan :=
  let chA := if ch.buf.length = 0 then injectNoise ch else ch
  let nBytesSent :=
    if chA.buf.length + nBytesToSend > BUFSIZE then BUFSIZE - chA.buf.length
    else nBytesToSend
  let st := storeBytes chA (dataTx.take nBytesSent)
  (nBytesSent, { st.2 with buf := chA.buf ++ st.1 })

/- PHY_get from sim-physical.c, specialised to requests of one byte (the only
way the link layer calls it).  If no byte is available it synthesizes one
random byte (the Sleep is the one clock tick charged by the caller);
otherwise it delivers the next stored byte, and resets both counters once the
buffer is fully drained.  It always returns exactly one byte. -/
def PHY_get1 (ch : Chan) : Nat × Chan :=
  if ch.buf.length - ch.used = 0 then
    let p := draw ch
    (p.1 % 256, p.2)
  else
    let b := ch.buf.getD ch.used 0
    if ch.used + 1 = ch.buf.length then (b, { ch with buf := [], used := 0 })
    else (b, { ch with used := ch.used + 1 })

/- timeSet from linklayer1.c in the discretised clock model: the deadline is
the current clock plus the limit (in ticks). -/
def timeSet (clock : Nat) (limit : Nat) : Nat :=
  clock + limit

/- timeUp from linklayer1.c: 1 when the clock has reached or passed the
deadline. -/
def timeUp (deadline : Nat) (clock : Nat) : Bool :=
  decide (deadline ≤ clock)

/- The start-of-frame search loop of getFrame:
`do { retVal = PHY_get(frameRx, 1); } while ((retVal < 1 || frameRx[0] != STARTBYTE) && !timeUp(timerRx));`
Under the simulated physical layer retVal is always 1, so the loop pulls one
byte per iteration until the byte is STARTBYTE or the deadline has passed.
Returns the last byte pulled (the final content of frameRx[0]), the channel
state and the clock. -/
def scanStart (ch : Chan) (clock deadline : Nat) : Nat × Chan × Nat :=
  let p := PHY_get1 ch
  let clock1 := clock + 1
  if p.1 = STARTBYTE then (p.1, p.2, clock1)
  else if _h : deadline ≤ clock1 then (p.1, p.2, clock1)
  else scanStart p.2 clock1 deadline
termination_by deadline - clock
decreasing_by omega

/- The byte-collection loop of getFrame:
`nRx = 2; do { PHY_get(frameRx + nRx, 1); nRx += retVal; } while ((nRx < byteCount) && !timeUp(timerRx));`
The loop body runs at least once (do-while); the PHY_get return value is not
reassigned inside the loop, so nRx advances by the stale retVal = 1 from the
byte-count read, which matches the one byte actually stored per iteration.
Returns the accumulated frame, nRx, the channel state and the clock. -/
def collectRest (ch : Chan) (clock deadline : Nat) (frame : List Nat)
    (nRx byteCount : Nat) : List Nat × Nat × Chan × Nat :=
  let p := PHY_get1 ch
  let clock1 := clock + 1
  let frame1 := frame ++ [p.1]
  let nRx1 := nRx + 1
  if _h : nRx1 < byteCount ∧ ¬ deadline ≤ clock1 then
    collectRest p.2 clock1 deadline frame1 nRx1 byteCount
  else (frame1, nRx1, p.2, clock1)
termination_by byteCount - nRx
decreasing_by omega

/- getFrame from linklayer1.c.  Searches for the start marker, reads the
byte-count cell, checks the deadline, collects the remaining bytes, checks
the deadline again, and returns the byte count together with the frame bytes
gathered, the channel state and the clock.  A return of 0 is a timeout; the
negative-error return of the C code cannot occur under the simulated physical
layer.  The maxSize argument is carried but never used, exactly as in the
source. -/
def getFrame (ch : Chan) (clock : Nat) (maxSize : Nat) (timeLimit : Nat) :
    Nat × List Nat × Chan × Nat :=
  let _ := maxSize
  let deadline := timeSet clock timeLimit
  let s := scanStart ch clock deadline
  let p := PHY_get1 s.2.1
  let clock2 := s.2.2 + 1
  let byteCount := p.1
  if timeUp deadline clock2 then (0, [s.1, p.1], p.2, clock2)
  else
    let c := collectRest p.2 clock2 deadline [s.1, p.1] 2 byteCount
    if timeUp deadline c.2.2.2 then (0, c.1, c.2.2.1, c.2.2.2)
    else (c.2.1, c.1, c.2.2.1, c.2.2.2)

/- State of the link layer (the static variables of linklayer1.c) together
with the channel state and the discretised clock. -/
structure LLState where
  seqNumTx : Nat
  connected : Nat
  framesSent : Nat
  badFrames : Nat
  goodFrames : Nat
  timeouts : Nat
  chan : Chan
  clock : Nat

/- LL_connect from linklayer1.c.  PHY_open always succeeds in simulation, so
the failure branch is dead but kept.  The threshold argument of the embedded
PHY_open abstracts PROB_ERR (see PHY_open); LL_connect passes it through as a
parameter `thr`.  The third component is the list of debug messages printed:
messages guarded by `if (debug)` appear only when debug is nonzero. -/
def LL_connect (thr : Nat) (debug : Nat) (st : LLState) : Int × LLState × List String :=
  let p := PHY_open st.chan 1 4800 8 0 1000 50 thr
  if p.1 = 0 then
    (0, { st with connected := 1, seqNumTx := 0, framesSent := 0,
                  badFrames := 0, goodFrames := 0, timeouts := 0, chan := p.2 },
     if debug ≠ 0 then ["LL: Connected"] else [])
  else
    (-p.1, { st with connected := 0, chan := p.2 },
     ["LL: Failed to connect"])

/- LL_discon from linklayer1.c. -/
def LL_discon (debug : Nat) (st : LLState) : Int × LLState × List String :=
  let p := PHY_close st.chan
  let st1 := { st with connected := 0, chan := p.2 }
  if p.1 = 0 then
    (0, st1, if debug ≠ 0 then ["LL: Disconnected, counters"] else [])
  else
    (-p.1, st1, ["LL: Failed to disconnect"])

/- LL_send from linklayer1.c. -/
def LL_send (dataTx : List Nat) (nData : Nat) (debug : Nat) (st : LLState) :
    Int × LLState × List String :=
  if st.connected = 0 then
    (-10, st, ["LL: Attempt to send while not connected"])
  else if nData > MAX_BLK then
    (-11, st, ["LL: Cannot send block, max exceeded"])
  else
    let b := buildDataFrame dataTx nData st.seqNumTx
    let p := PHY_send st.chan b.1 b.2
    if p.1 ≠ b.2 then
      (-12, { st with chan := p.2 }, ["LL: failed to send frame"])
    else
      (0, { st with chan := p.2, framesSent := st.framesSent + 1,
                    seqNumTx := next st.seqNumTx },
       if debug ≠ 0 then ["LL: Sent frame"] else [])

/- LL_receive from linklayer1.c.  The second component is the list of bytes
written into the caller's dataRx array; the receive waiting time RX_WAIT is
the tick budget `rxWait`.  The `nFrame < 0` branch of the C code is dead
under the simulated physical layer (getFrame never reports an error). -/
def LL_receive (maxData : Nat) (rxWait : Nat) (debug : Nat) (st : LLState) :
    Int × List Nat × LLState × List String :=
  if st.connected = 0 then
    (-10, [], st, ["LL: Attempt to receive while not connected"])
  else
    let g := getFrame st.chan st.clock (3 * MAX_BLK) rxWait
    let st1 := { st with chan := g.2.2.1, clock := g.2.2.2 }
    let nFrame := g.1
    let frameRx := g.2.1
    if nFrame = 0 then
      (-5, [], { st1 with timeouts := st1.timeouts + 1 },
       ["LL: Timeout trying to receive frame"])
    else
      let log1 := if debug ≠ 0 then ["LL: Got frame"] else []
      if checkFrame frameRx nFrame = 0 then
        (10, List.replicate 10 35, { st1 with badFrames := st1.badFrames + 1 },
         log1 ++ (if debug ≠ 0 then ["LL: Bad frame received"] else []))
      else
        let pr := processFrame frameRx nFrame maxData
        (pr.1, pr.2.1, { st1 with goodFrames := st1.goodFrames + 1 },
         log1 ++ (if debug ≠ 0 then ["LL: Good frame received"] else []))

/- A channel whose pending bytes are a start marker followed by a length
byte of 2, and a channel carrying one well-formed frame with a 2-byte
payload (length byte 5). -/
def chLen2 : Chan := ⟨[206, 2, 0, 0, 0], 0, fun _ => 0, 0, 0, 0⟩

def chLen5 : Chan := ⟨[206, 5, 1, 2, 3], 0, fun _ => 0, 0, 0, 0⟩

/- A concrete disconnected link-layer state. -/
def stDisc : LLState :=
  ⟨3, 0, 1, 2, 3, 4, ⟨[5, 6], 1, fun _ => 0, 0, 0, 0⟩, 9⟩

/- One successful LL_send call from state s to state s2: some inputs make
LL_send return 0 with s2 as the resulting state. -/
def SendStep (s s2 : LLState) : Prop :=
  ∃ dataTx nData debug, (LL_send dataTx nData debug s).1 = 0 ∧
    (LL_send dataTx nData debug s).2.1 = s2

/- A concrete connected link-layer state with an all-zero random stream and
no corruption, and the chain of states it passes through under repeated
LL_send calls with an empty payload. -/
def stConn : LLState :=
  ⟨0, 1, 0, 0, 0, 0, ⟨[], 0, fun _ => 0, 0, 0, 0⟩, 0⟩

def sendIter : Nat → LLState
  | 0 => stConn
  | i + 1 => (LL_send [] 0 0 (sendIter i)).2.1

/- A connected state whose channel delivers a 10-byte corrupted frame (start
marker, length byte 10, then zeros, no end marker), and a connected state
whose channel delivers a well-formed 15-byte frame with sequence number 7
and a 10-byte all-zero payload. -/
def chBad10 : Chan := ⟨[206, 10, 0, 0, 0, 0, 0, 0, 0, 0], 0, fun _ => 0, 0, 0, 0⟩

def stBad : LLState := ⟨0, 1, 0, 0, 0, 0, chBad10, 0⟩

def chGood15 : Chan :=
  ⟨[206, 15, 7, 0, 0, 0, 0, 0, 0, 0, 0, 0, 0, 0, 204], 0, fun _ => 0, 0, 0, 0⟩

def stGood : LLState := ⟨0, 1, 0, 0, 0, 0, chGood15, 0⟩

/- Quick sanity examples (concrete evaluations of the embedding). -/

example : next 15 = 0 := by decide

example : (buildDataFrame [1, 2, 3] 3 7).1 = [206, 8, 7, 1, 2, 3, 250, 204] := by decide

example : checkFrame [206, 8, 7, 1, 2, 3, 250, 204] 8 = 1 := by decide

example : checkFrame [206, 8, 7, 1, 2, 3, 251, 204] 8 = 0 := by decide

example : processFrame [206, 8, 7, 1, 2, 3, 250, 204] 8 20 = (3, [1, 2, 3], 7) := by decide

/- The summation loop reads the cells of the sublist starting at `lo`. -/
theorem sumFrom_eq_sum (cnt : Nat) : ∀ (l : List Nat) (lo : Nat),
    sumFrom l lo cnt = ((l.drop lo).take cnt).sum := by
  induction cnt with
  | zero => intro l lo; simp [sumFrom]
  | succ k ih =>
    intro l lo
    rcases Nat.lt_or_ge lo l.length with h | h
    · rw [sumFrom, ih, List.drop_eq_getElem_cons h, List.take_succ_cons, List.sum_cons,
        List.getD_eq_getElem _ _ h]
    · rw [sumFrom, ih, List.drop_eq_nil_of_le h, List.drop_eq_nil_of_le (by omega),
        List.getD_eq_default _ _ h]
      simp

/- The frame array built by buildDataFrame, with the trailer split off. -/
theorem buildDataFrame_split (dataTx : List Nat) (nData seq : Nat) :
    (buildDataFrame dataTx nData seq).1
      = ([STARTBYTE, (HEADERSIZE + nData + TRAILERSIZE) % 256, seq % 256] ++ dataTx.take nData)
        ++ [(256 - ((dataTx.take nData).sum % 256)) % 256, ENDBYTE] := by
  simp [buildDataFrame]

/- Cell lemmas for lists of the frame shape header ++ payload ++ trailer. -/

theorem getD_frame_last (a b c d e : Nat) (mid : List Nat) :
    (([a, b, c] ++ mid) ++ [d, e]).getD (mid.length + 4) 0 = e := by
  have hL : ([a, b, c] ++ mid).length = mid.length + 3 := by
    simp only [List.length_append, List.length_cons, List.length_nil]
    omega
  rw [List.getD_append_right _ _ _ _ (by rw [hL]; omega), hL]
  have h1 : mid.length + 4 - (mid.length + 3) = 1 := by omega
  rw [h1]
  rfl

theorem drop3_frame (a b c d e : Nat) (mid : List Nat) :
    (([a, b, c] ++ mid) ++ [d, e]).drop 3 = mid ++ [d, e] := by
  rw [List.append_assoc]
  rfl

theorem getD1_frame (a b c : Nat) (mid rest : List Nat) :
    (([a, b, c] ++ mid) ++ rest).getD 1 0 = b := rfl

theorem getD0_frame (a b c : Nat) (mid rest : List Nat) :
    (([a, b, c] ++ mid) ++ rest).getD 0 0 = a := rfl

theorem getD2_frame (a b c : Nat) (mid rest : List Nat) :
    (([a, b, c] ++ mid) ++ rest).getD 2 0 = c := rfl

/-- C2: for every payload of length 0..250 and every sequence number 0..15,
checkFrame accepts the frame produced by buildDataFrame, and processFrame on
that frame reproduces the exact payload bytes, the payload length (as its
return value) and the sequence number, provided the receive buffer is at
least as large as the payload. -/
theorem build_check_process_roundtrip (data : List Nat) (seq maxData : Nat)
    (hlen : data.length ≤ 250) (hseq : seq ≤ 15) (hmax : data.length ≤ maxData) :
    checkFrame (buildDataFrame data data.length seq).1 (buildDataFrame data data.length seq).2 = 1 ∧
    processFrame (buildDataFrame data data.length seq).1 (buildDataFrame data data.length seq).2 maxData
      = ((data.length : Int), data, seq) := by
  obtain ⟨n, hn⟩ : ∃ n, data.length = n := ⟨_, rfl⟩
  have htake : data.take n = data := by rw [← hn]; exact List.take_length data
  have hmod : (HEADERSIZE + n + TRAILERSIZE) % 256 = n + 5 := by
    simp only [HEADERSIZE, TRAILERSIZE]
    omega
  have hseqmod : seq % 256 = seq := Nat.mod_eq_of_lt (by omega)
  have hframe : (buildDataFrame data n seq).1
      = ([STARTBYTE, n + 5, seq] ++ data) ++ [(256 - (data.sum % 256)) % 256, ENDBYTE] := by
    rw [buildDataFrame_split, htake, hmod, hseqmod]
  have hsnd : (buildDataFrame data n seq).2 = n + 5 := by
    simp only [buildDataFrame, HEADERSIZE, TRAILERSIZE]
    omega
  rw [hn, hframe, hsnd]
  have c0 : (([STARTBYTE, n + 5, seq] ++ data) ++ [(256 - (data.sum % 256)) % 256, ENDBYTE]).getD 0 0
      = STARTBYTE := getD0_frame ..
  have clast : (([STARTBYTE, n + 5, seq] ++ data) ++ [(256 - (data.sum % 256)) % 256, ENDBYTE]).getD (n + 4) 0
      = ENDBYTE := by
    have := getD_frame_last STARTBYTE (n + 5) seq ((256 - (data.sum % 256)) % 256) ENDBYTE data
    rwa [hn] at this
  have csum : sumFrom (([STARTBYTE, n + 5, seq] ++ data) ++ [(256 - (data.sum % 256)) % 256, ENDBYTE])
      HEADERSIZE (n + 1) = data.sum + (256 - (data.sum % 256)) % 256 := by
    rw [HEADERSIZE, sumFrom_eq_sum, drop3_frame, List.take_append_eq_append_take,
        List.take_of_length_le (by omega), List.sum_append]
    have h1 : n + 1 - data.length = 1 := by omega
    rw [h1]
    simp
  constructor
  · rw [checkFrame]
    rw [if_neg (by rw [c0]; simp)]
    have hidx : n + 5 - 1 = n + 4 := by omega
    rw [hidx, if_neg (by rw [clast]; simp)]
    have hcnt : n + 5 - 4 = n + 1 := by omega
    rw [hcnt, if_neg (by rw [csum]; simp; omega)]
    rw [if_neg (by rw [BYTECOUNTPOS, getD1_frame]; simp)]
  · rw [processFrame]
    have hseqcell : (([STARTBYTE, n + 5, seq] ++ data) ++ [(256 - (data.sum % 256)) % 256, ENDBYTE]).getD SEQNUMPOS 0 = seq := by
      rw [SEQNUMPOS]; exact getD2_frame ..
    rw [hseqcell]
    have hnd0 : ((n + 5 : Nat) : Int) - (HEADERSIZE : Nat) - (TRAILERSIZE : Nat) = (n : Int) := by
      simp [HEADERSIZE, TRAILERSIZE]
      omega
    simp only [hnd0]
    rw [if_neg (by omega)]
    have htn : ((n : Int)).toNat = n := Int.toNat_natCast n
    rw [htn, HEADERSIZE, drop3_frame, List.take_append_eq_append_take,
        List.take_of_length_le (by omega)]
    have h0 : n - data.length = 0 := by omega
    rw [h0]
    simp

/-- C1 (counterexample): the claim fails at nData = 251, a payload length
accepted by LL_send since 251 <= MAX_BLK = 255: the (byte) cast wraps the
length byte to (5 + 251) % 256 = 0, which is neither 5 + 251 nor in 5..255. -/
theorem length_byte_counterexample :
    251 ≤ MAX_BLK ∧
    (buildDataFrame (List.replicate 251 0) 251 0).1.getD BYTECOUNTPOS 0 = 0 ∧
    ¬ (5 ≤ (buildDataFrame (List.replicate 251 0) 251 0).1.getD BYTECOUNTPOS 0) := by
  refine ⟨by decide, ?_, ?_⟩ <;>
    · rw [buildDataFrame_split, BYTECOUNTPOS, getD1_frame]
      decide

/-- C1 (amended): for every payload length nData with 0 <= nData <= 250 (the
lengths the 5-byte overhead frame format can carry, rather than all
nData <= MAX_BLK = 255) and every sequence number, the frame produced by
buildDataFrame has its length byte (offset 1) equal to 5 + nData, a value in
5..255. -/
theorem length_byte_in_range (dataTx : List Nat) (nData seq : Nat)
    (h : nData ≤ 250) :
    (buildDataFrame dataTx nData seq).1.getD BYTECOUNTPOS 0 = 5 + nData ∧
    5 ≤ 5 + nData ∧ 5 + nData ≤ 255 := by
  rw [buildDataFrame_split, BYTECOUNTPOS, getD1_frame]
  refine ⟨?_, by omega, by omega⟩
  simp only [HEADERSIZE, TRAILERSIZE]
  omega

/-- C1 witness: the amended statement evaluated at a concrete input. -/
theorem length_byte_in_range_witness :
    (buildDataFrame [9, 9] 2 3).1.getD BYTECOUNTPOS 0 = 5 + 2 ∧
    5 ≤ 5 + 2 ∧ 5 + 2 ≤ 255 :=
  length_byte_in_range [9, 9] 2 3 (by decide)

/-- C2 witness: the roundtrip evaluated at a concrete payload, sequence
number and buffer size. -/
theorem build_check_process_roundtrip_witness :
    checkFrame (buildDataFrame [1, 2, 3] 3 7).1 (buildDataFrame [1, 2, 3] 3 7).2 = 1 ∧
    processFrame (buildDataFrame [1, 2, 3] 3 7).1 (buildDataFrame [1, 2, 3] 3 7).2 20
      = ((3 : Int), [1, 2, 3], 7) :=
  build_check_process_roundtrip [1, 2, 3] 7 20 (by decide) (by decide) (by decide)

/- The checksum loop of checkFrame sums the payload cells and the checksum
cell, when nFrame is the real frame length and at least 5. -/
theorem sumFrom_checkFrame (frame : List Nat) (nFrame : Nat)
    (hlen : nFrame = frame.length) (h5 : 5 ≤ nFrame) :
    sumFrom frame HEADERSIZE (nFrame - 4)
      = ((frame.drop 3).take (nFrame - 5)).sum + frame.getD (nFrame - 2) 0 := by
  rw [HEADERSIZE, sumFrom_eq_sum]
  have h1 : nFrame - 4 = (nFrame - 5) + 1 := by omega
  rw [h1, List.take_succ, List.sum_append, List.getElem?_drop]
  have h2 : 3 + (nFrame - 5) = nFrame - 2 := by omega
  rw [h2]
  have h3 : nFrame - 2 < frame.length := by omega
  rw [List.getElem?_eq_getElem h3, List.getD_eq_getElem _ _ h3]
  simp

/-- C3: for every byte array frame of length nFrame >= 5, checkFrame returns
1 exactly when the first byte is the start marker, the last byte is the end
marker, the length byte at offset 1 equals nFrame, and the payload bytes
plus the checksum byte sum to 0 mod 256; in every other case it returns 0. -/
theorem checkFrame_eq_one_iff (frame : List Nat) (nFrame : Nat)
    (hlen : nFrame = frame.length) (h5 : 5 ≤ nFrame)
    (_hbytes : ∀ b ∈ frame, b < 256) :
    (checkFrame frame nFrame = 1 ↔
      (frame.getD 0 0 = STARTBYTE ∧ frame.getD (nFrame - 1) 0 = ENDBYTE ∧
       frame.getD BYTECOUNTPOS 0 = nFrame ∧
       (((frame.drop HEADERSIZE).take (nFrame - (HEADERSIZE + TRAILERSIZE))).sum
          + frame.getD (nFrame - TRAILERSIZE) 0) % 256 = 0)) ∧
    (checkFrame frame nFrame = 0 ∨ checkFrame frame nFrame = 1) := by
  have key := sumFrom_checkFrame frame nFrame hlen h5
  have keymod : (((frame.drop HEADERSIZE).take (nFrame - (HEADERSIZE + TRAILERSIZE))).sum
      + frame.getD (nFrame - TRAILERSIZE) 0) % 256
      = sumFrom frame HEADERSIZE (nFrame - 4) % 256 := by
    rw [key]
    simp only [HEADERSIZE, TRAILERSIZE]
  constructor
  · rw [keymod, checkFrame]
    split_ifs with h1 h2 h3 h4
    · exact iff_of_false (by simp) (fun h => h1 h.1)
    · exact iff_of_false (by simp) (fun h => h2 h.2.1)
    · exact iff_of_false (by simp) (fun h => h3 h.2.2.2)
    · refine iff_of_false (by simp) ?_
      rintro ⟨hA, hB, hC, hD⟩
      exact h4 (by exact_mod_cast hC.symm)
    · refine iff_of_true rfl ⟨not_not.mp h1, not_not.mp h2, ?_, not_not.mp h3⟩
      have h4' : (nFrame : Int) = (frame.getD BYTECOUNTPOS 0 : Nat) := not_not.mp h4
      exact_mod_cast h4'.symm
  · rw [checkFrame]
    split_ifs <;> simp

/-- C3 witness: the characterisation evaluated at a concrete frame. -/
theorem checkFrame_eq_one_iff_witness :
    (checkFrame [206, 8, 7, 1, 2, 3, 250, 204] 8 = 1 ↔
      ([206, 8, 7, 1, 2, 3, 250, 204].getD 0 0 = STARTBYTE ∧
       [206, 8, 7, 1, 2, 3, 250, 204].getD (8 - 1) 0 = ENDBYTE ∧
       [206, 8, 7, 1, 2, 3, 250, 204].getD BYTECOUNTPOS 0 = 8 ∧
       ((([206, 8, 7, 1, 2, 3, 250, 204].drop HEADERSIZE).take (8 - (HEADERSIZE + TRAILERSIZE))).sum
          + [206, 8, 7, 1, 2, 3, 250, 204].getD (8 - TRAILERSIZE) 0) % 256 = 0)) ∧
    (checkFrame [206, 8, 7, 1, 2, 3, 250, 204] 8 = 0 ∨
     checkFrame [206, 8, 7, 1, 2, 3, 250, 204] 8 = 1) :=
  checkFrame_eq_one_iff [206, 8, 7, 1, 2, 3, 250, 204] 8 (by decide) (by decide) (by decide)

/- The noise loop draws exactly the requested number of bytes. -/
theorem drawNoise_length (k : Nat) : ∀ ch : Chan, (drawNoise ch k).1.length = k := by
  induction k with
  | zero => intro ch; rfl
  | succ m ih => intro ch; simp [drawNoise, ih]

/- Every byte produced by the noise loop is rand() % 200, hence below 200. -/
theorem drawNoise_mem_lt (k : Nat) : ∀ (ch : Chan) (b : Nat),
    b ∈ (drawNoise ch k).1 → b < 200 := by
  induction k with
  | zero => intro ch b hb; simp [drawNoise] at hb
  | succ m ih =>
    intro ch b hb
    rw [drawNoise] at hb
    rcases List.mem_cons.mp hb with h | h
    · subst h; exact Nat.mod_lt _ (by omega)
    · exact ih _ _ h

/- The buffer after PHY_send is the (possibly noise-initialised) buffer with
the stored bytes appended. -/
theorem PHY_send_buf (ch : Chan) (dataTx : List Nat) (n : Nat) :
    (PHY_send ch dataTx n).2.buf
      = (if ch.buf.length = 0 then injectNoise ch else ch).buf
        ++ (storeBytes (if ch.buf.length = 0 then injectNoise ch else ch)
             (dataTx.take (PHY_send ch dataTx n).1)).1 := rfl

/-- C7: a PHY_send call on an empty channel buffer injects between 4 and 19
pseudo-random line-noise bytes ahead of the caller's data (the injected
prefix is exactly the injectNoise buffer, of length 4 + rand() % 16), for
every value of the random source. -/
theorem phy_send_noise_bounds (ch : Chan) (dataTx : List Nat) (n : Nat)
    (hempty : ch.buf = []) :
    4 ≤ (injectNoise ch).buf.length ∧ (injectNoise ch).buf.length ≤ 19 ∧
    (PHY_send ch dataTx n).2.buf.take (injectNoise ch).buf.length = (injectNoise ch).buf := by
  have hlen : (injectNoise ch).buf.length = 4 + (draw ch).1 % 16 := by
    rw [injectNoise]
    exact drawNoise_length _ _
  refine ⟨by omega, ?_, ?_⟩
  · have : (draw ch).1 % 16 < 16 := Nat.mod_lt _ (by omega)
    omega
  · have hcond : ch.buf.length = 0 := by rw [hempty]; rfl
    rw [PHY_send_buf, if_pos hcond]
    exact List.take_left _ _

/-- C7 witness: the bounds evaluated at a concrete empty channel. -/
theorem phy_send_noise_bounds_witness :
    4 ≤ (injectNoise ⟨[], 0, fun _ => 9, 0, 0, 0⟩).buf.length ∧
    (injectNoise ⟨[], 0, fun _ => 9, 0, 0, 0⟩).buf.length ≤ 19 ∧
    (PHY_send ⟨[], 0, fun _ => 9, 0, 0, 0⟩ [1, 2] 2).2.buf.take
        (injectNoise ⟨[], 0, fun _ => 9, 0, 0, 0⟩).buf.length
      = (injectNoise ⟨[], 0, fun _ => 9, 0, 0, 0⟩).buf :=
  phy_send_noise_bounds ⟨[], 0, fun _ => 9, 0, 0, 0⟩ [1, 2] 2 rfl

/-- C8: every line-noise byte injected by PHY_send on an empty buffer is in
0..199, strictly below both the end marker (204) and the start marker (206),
and in particular is never equal to the start marker that the
start-of-frame search of getFrame looks for, for every value of the random
source. -/
theorem noise_bytes_below_markers (ch : Chan) (b : Nat)
    (hb : b ∈ (injectNoise ch).buf) :
    b ≤ 199 ∧ b < ENDBYTE ∧ b < STARTBYTE ∧ b ≠ STARTBYTE := by
  have h200 : b < 200 := by
    rw [injectNoise] at hb
    exact drawNoise_mem_lt _ _ _ hb
  refine ⟨by omega, ?_, ?_, ?_⟩
  · rw [ENDBYTE]; omega
  · rw [STARTBYTE]; omega
  · rw [STARTBYTE]; omega

/-- C8 witness: a concrete noise byte of a concrete empty channel. -/
theorem noise_bytes_below_markers_witness :
    (0 ∈ (injectNoise ⟨[], 0, fun _ => 0, 0, 0, 0⟩).buf) ∧
    (0 ≤ 199 ∧ 0 < ENDBYTE ∧ 0 < STARTBYTE ∧ 0 ≠ STARTBYTE) :=
  ⟨by decide, noise_bytes_below_markers ⟨[], 0, fun _ => 0, 0, 0, 0⟩ 0 (by decide)⟩

/-- C4: calling LL_send or LL_receive while Disconnected returns -10 and is
free of side effects: the returned state (channel buffer, cursors, random
cursor, sequence number, all counters, clock) is the input state, and no
bytes are written into the caller's receive buffer. -/
theorem not_connected_rejected (st : LLState) (dataTx : List Nat)
    (nData maxData rxWait debug : Nat) (h : st.connected = 0) :
    LL_send dataTx nData debug st = (-10, st, ["LL: Attempt to send while not connected"]) ∧
    LL_receive maxData rxWait debug st
      = (-10, [], st, ["LL: Attempt to receive while not connected"]) := by
  constructor <;> simp [LL_send, LL_receive, h]

/-- C4 witness: the rejection evaluated at a concrete disconnected state. -/
theorem not_connected_rejected_witness :
    LL_send [8] 1 1 stDisc = (-10, stDisc, ["LL: Attempt to send while not connected"]) ∧
    LL_receive 5 7 1 stDisc
      = (-10, [], stDisc, ["LL: Attempt to receive while not connected"]) :=
  not_connected_rejected stDisc [8] 1 5 7 1 rfl

/-- C5: for every public operation, every input and every starting state,
the return value, the final state (connection flag, sequence number,
counters, channel buffer and cursors, clock) and the bytes written into the
caller's buffer do not depend on the debug flag: only the log of printed
messages may differ. -/
theorem debug_flag_no_influence (st : LLState) (d1 d2 : Nat) :
    (∀ thr, (LL_connect thr d1 st).1 = (LL_connect thr d2 st).1 ∧
            (LL_connect thr d1 st).2.1 = (LL_connect thr d2 st).2.1) ∧
    ((LL_discon d1 st).1 = (LL_discon d2 st).1 ∧
     (LL_discon d1 st).2.1 = (LL_discon d2 st).2.1) ∧
    (∀ dataTx nData,
       (LL_send dataTx nData d1 st).1 = (LL_send dataTx nData d2 st).1 ∧
       (LL_send dataTx nData d1 st).2.1 = (LL_send dataTx nData d2 st).2.1) ∧
    (∀ maxData rxWait,
       (LL_receive maxData rxWait d1 st).1 = (LL_receive maxData rxWait d2 st).1 ∧
       (LL_receive maxData rxWait d1 st).2.1 = (LL_receive maxData rxWait d2 st).2.1 ∧
       (LL_receive maxData rxWait d1 st).2.2.1 = (LL_receive maxData rxWait d2 st).2.2.1) := by
  refine ⟨fun thr => ?_, ?_, fun dataTx nData => ?_, fun maxData rxWait => ?_⟩
  · simp only [LL_connect]
    split_ifs <;> simp
  · simp only [LL_discon]
    split_ifs <;> simp
  · simp only [LL_send]
    split_ifs <;> simp
  · simp only [LL_receive]
    split_ifs <;> simp

/- A successful LL_send advances the sequence number via next. -/
theorem sendStep_seqNumTx {s s2 : LLState} (h : SendStep s s2) :
    s2.seqNumTx = next s.seqNumTx := by
  obtain ⟨dataTx, nData, debug, h0, h1⟩ := h
  simp only [LL_send] at h0 h1
  split_ifs at h0 h1 with hc hm hp hd
  · simp at h0
  · simp at h0
  · simp at h0
  · simp at h1
    rw [← h1]
  · simp at h1
    rw [← h1]

/-- C6: next 15 = 0; next seq = (seq + 1) mod 16 for every sequence number;
and any chain of 16 consecutive successful LL_send calls returns the
transmit sequence counter to its starting value (sequence numbers are
0..15, hence the starting-value bound). -/
theorem seq_wraparound :
    next 15 = 0 ∧ (∀ seq, next seq = (seq + 1) % 16) ∧
    (∀ f : Nat → LLState, (∀ i, i < 16 → SendStep (f i) (f (i + 1))) →
      (f 0).seqNumTx < 16 → (f 16).seqNumTx = (f 0).seqNumTx) := by
  refine ⟨by decide, fun seq => rfl, fun f hstep hlt => ?_⟩
  have key : ∀ i, i ≤ 16 → (f i).seqNumTx = next^[i] ((f 0).seqNumTx) := by
    intro i
    induction i with
    | zero => intro _; rfl
    | succ k ih =>
      intro hk
      rw [sendStep_seqNumTx (hstep k (by omega)), ih (by omega),
        Function.iterate_succ_apply']
  rw [key 16 (by omega)]
  revert hlt
  revert hstep
  exact fun _ => (by decide : ∀ s, s < 16 → next^[16] s = s) _

/-- C6 witness: sixteen concrete successful sends return the sequence
counter to its starting value. -/
theorem seq_wraparound_witness :
    (sendIter 16).seqNumTx = (sendIter 0).seqNumTx := by
  refine seq_wraparound.2.2 sendIter ?_ (by decide)
  intro i hi
  refine ⟨[], 0, 0, ?_, rfl⟩
  interval_cases i <;> decide

/- The collection loop only appends to the frame gathered so far. -/
theorem collectRest_fst (ch : Chan) (clock deadline : Nat) (frame : List Nat)
    (nRx byteCount : Nat) :
    ∃ ext, (collectRest ch clock deadline frame nRx byteCount).1 = frame ++ ext := by
  induction ch, clock, deadline, frame, nRx, byteCount using collectRest.induct with
  | case1 a b c d e f g hh i j k ih =>
    rw [collectRest, dif_pos k]
    obtain ⟨ext, hext⟩ := ih
    exact ⟨g.1 :: ext, hext.trans (by show (d ++ [g.1]) ++ ext = d ++ (g.1 :: ext); simp)⟩
  | case2 a b c d e f g hh k =>
    rw [collectRest, dif_neg k]
    exact ⟨[(PHY_get1 a).1], rfl⟩

/- When the collection loop exits without the deadline having passed, the
byte count it returns is max (nRx + 1) byteCount: at least one byte is
always read (do-while), and otherwise reading stops exactly at byteCount. -/
theorem collectRest_count (ch : Chan) (clock deadline : Nat) (frame : List Nat)
    (nRx byteCount : Nat) :
    ¬ deadline ≤ (collectRest ch clock deadline frame nRx byteCount).2.2.2 →
    (collectRest ch clock deadline frame nRx byteCount).2.1 = max (nRx + 1) byteCount := by
  induction ch, clock, deadline, frame, nRx, byteCount using collectRest.induct with
  | case1 a b c d e f g hh i j k ih =>
    rw [collectRest, dif_pos k]
    intro hend
    have h2 := ih hend
    have h3 : j < f := k.1
    exact h2.trans (by omega)
  | case2 a b c d e f g hh k =>
    rw [collectRest, dif_neg k]
    intro hend
    show e + 1 = max (e + 1) f
    have hf : ¬ (e + 1 < f) := fun hlt => k ⟨hlt, hend⟩
    omega

/-- C9 (amended): whenever getFrame returns a positive byte count n, n equals
the received length byte (frame cell 1) when that value is at least 3, and n
equals 3 otherwise (the do-while collection loop always reads at least one
byte past the two header bytes); consequently the length-byte comparison in
checkFrame can fail on a frame delivered by getFrame only when the received
length byte is less than 3. -/
theorem getFrame_positive_count (ch : Chan) (clock maxSize timeLimit : Nat)
    (hpos : 0 < (getFrame ch clock maxSize timeLimit).1) :
    (getFrame ch clock maxSize timeLimit).1
      = max 3 ((getFrame ch clock maxSize timeLimit).2.1.getD BYTECOUNTPOS 0) ∧
    (3 ≤ (getFrame ch clock maxSize timeLimit).2.1.getD BYTECOUNTPOS 0 →
      (getFrame ch clock maxSize timeLimit).1
        = (getFrame ch clock maxSize timeLimit).2.1.getD BYTECOUNTPOS 0) := by
  rw [BYTECOUNTPOS]
  simp only [getFrame, timeSet, timeUp, decide_eq_true_eq] at hpos ⊢
  split_ifs at hpos ⊢ with h1 h2
  · exact absurd hpos (by simp)
  · exact absurd hpos (by simp)
  · set s := scanStart ch clock (clock + timeLimit) with hs
    set p := PHY_get1 s.2.1 with hp
    set c := collectRest p.2 (s.2.2 + 1) (clock + timeLimit) [s.1, p.1] 2 p.1 with hc
    have hcount := collectRest_count p.2 (s.2.2 + 1) (clock + timeLimit) [s.1, p.1] 2 p.1
    have hfst := collectRest_fst p.2 (s.2.2 + 1) (clock + timeLimit) [s.1, p.1] 2 p.1
    rw [← hc] at hcount hfst
    have hcount2 := hcount h2
    obtain ⟨ext, hext⟩ := hfst
    have hgd : c.1.getD 1 0 = p.1 := by
      rw [hext]
      exact List.getD_append _ _ _ _ (by simp)
    constructor
    · rw [hcount2, hgd]
    · intro h3
      rw [hgd] at h3
      rw [hcount2, hgd]
      exact Nat.max_eq_right h3

/-- C9 (counterexample): on a channel delivering a start marker followed by
a length byte of 2, getFrame returns the positive byte count 3, not 2 as the
claim states for a received length byte of at least 2 (and the length-byte
comparison of checkFrame fails on the delivered frame even though the length
byte is not less than 2). -/
theorem getFrame_count_counterexample :
    0 < (getFrame chLen2 0 765 100).1 ∧
    2 ≤ (getFrame chLen2 0 765 100).2.1.getD BYTECOUNTPOS 0 ∧
    (getFrame chLen2 0 765 100).2.1.getD BYTECOUNTPOS 0 = 2 ∧
    (getFrame chLen2 0 765 100).1 = 3 ∧
    (3 : Nat) ≠ 2 := by
  refine ⟨?_, ?_, ?_, ?_, by decide⟩ <;>
    simp [getFrame, scanStart, collectRest, chLen2, PHY_get1, draw, STARTBYTE,
      BYTECOUNTPOS, timeSet, timeUp]

/-- C9 witness: the amended statement evaluated on a channel carrying one
frame whose length byte is 5. -/
theorem getFrame_positive_count_witness :
    0 < (getFrame chLen5 0 765 100).1 ∧
    ((getFrame chLen5 0 765 100).1
       = max 3 ((getFrame chLen5 0 765 100).2.1.getD BYTECOUNTPOS 0) ∧
     (3 ≤ (getFrame chLen5 0 765 100).2.1.getD BYTECOUNTPOS 0 →
       (getFrame chLen5 0 765 100).1
         = (getFrame chLen5 0 765 100).2.1.getD BYTECOUNTPOS 0)) :=
  ⟨by simp [getFrame, scanStart, collectRest, chLen5, PHY_get1, draw, STARTBYTE,
      timeSet, timeUp],
   getFrame_positive_count chLen5 0 765 100
     (by simp [getFrame, scanStart, collectRest, chLen5, PHY_get1, draw, STARTBYTE,
       timeSet, timeUp])⟩

/-- C10: the return value 10 of LL_receive is ambiguous: one run returns 10
after detecting a bad frame (caller buffer filled with ten sentinel bytes 35,
bad-frame counter incremented), another run returns 10 after extracting a
good frame with a genuine 10-byte payload (good-frame counter incremented),
so the return value alone cannot distinguish the two outcomes. -/
theorem receive_return_10_ambiguous :
    (LL_receive 20 100 0 stBad).1 = 10 ∧
    (LL_receive 20 100 0 stBad).2.1 = [35, 35, 35, 35, 35, 35, 35, 35, 35, 35] ∧
    (LL_receive 20 100 0 stBad).2.2.1.badFrames = stBad.badFrames + 1 ∧
    (LL_receive 20 100 0 stBad).2.2.1.goodFrames = stBad.goodFrames ∧
    (LL_receive 20 100 0 stGood).1 = 10 ∧
    (LL_receive 20 100 0 stGood).2.1 = [0, 0, 0, 0, 0, 0, 0, 0, 0, 0] ∧
    (LL_receive 20 100 0 stGood).2.2.1.goodFrames = stGood.goodFrames + 1 ∧
    (LL_receive 20 100 0 stGood).2.2.1.badFrames = stGood.badFrames := by
  refine ⟨?_, ?_, ?_, ?_, ?_, ?_, ?_, ?_⟩ <;>
    simp [LL_receive, getFrame, scanStart, collectRest, checkFrame, processFrame,
      sumFrom, stBad, stGood, chBad10, chGood15, PHY_get1, draw, STARTBYTE, ENDBYTE,
      BYTECOUNTPOS, SEQNUMPOS, HEADERSIZE, TRAILERSIZE, MAX_BLK, timeSet, timeUp,
      List.replicate, next]

end WinkLL
